import Mathlib

/-!
Verification of the `modify_code` safe-edit function of
`autogen-autodebug-flow-group.py` (the SafeFileEditor component of the spec).

The embedding models:
  * the filesystem as a partial map from paths to file contents;
  * Python `readlines` (split after each newline, keeping the terminators);
  * the slice assignment `lines[start_line - 1 : end_line] = [new_code + "\n"]`;
  * the validator (`ast.parse` guarded by `try/except SyntaxError` in the
    source) as an abstract parameter `validate : String → Except String Unit`,
    since the editor is parametric over the validation strategy;
  * fallible writes via a per-call fault schedule: a Python write that raises
    mid-way leaves the (truncated-on-open) file holding a prefix of the data,
    and the exception is caught by the function's outer `except`, which turns
    it into a `(1, message)` return value.
-/

/-- The filesystem: a map from path to file content, `none` when the file
does not exist. -/
def FS : Type := String → Option String

/-- Writing a file: the path now maps to the new content. -/
def FS.write (fs : FS) (p c : String) : FS :=
  fun q => if q = p then some c else fs q

/-- Outcome of one low-level file write: either it completes, or it raises
after `written` characters of the data reached the (truncated) file. -/
inductive WriteOutcome : Type where
  | ok : WriteOutcome
  | fail (written : Nat) : WriteOutcome
deriving DecidableEq

/-- Fault schedule for the three write steps `modify_code` can perform, in
source order: the backup copy (line 208), the restore of the target on
validation failure (line 225), and the final save (line 231). -/
structure Faults : Type where
  backupW : WriteOutcome
  restoreW : WriteOutcome
  finalW : WriteOutcome

/-- The fault-free schedule: every write completes. -/
def noFaults : Faults := ⟨.ok, .ok, .ok⟩

/-- Python `readlines`: split the content after every newline character,
keeping the terminators; a final chunk with no terminator is kept as-is;
the empty string yields no lines. -/
def readlinesAux : List Char → List Char → List String
  | [], [] => []
  | [], acc => [String.mk acc.reverse]
  | c :: rest, acc =>
    if c = '\n' then String.mk (c :: acc).reverse :: readlinesAux rest []
    else readlinesAux rest (c :: acc)

/-- Python `file.readlines()` on a whole file content. -/
def pyReadlines (s : String) : List String :=
  readlinesAux s.data []

/-- Return-site tag of `modify_code`.  The Python function returns a pair
`(status, message)`; each constructor corresponds to one `return` site (or
one exception caught by the outer `except`), and `pyStatus` below recovers
the numeric first component. -/
inductive MStatus : Type where
  | applied : MStatus
  | notFound : MStatus
  | backupError (written : Nat) : MStatus
  | rangeError : MStatus
  | rejected (diag : String) : MStatus
  | restoreError (written : Nat) : MStatus
  | writeError (written : Nat) : MStatus
deriving DecidableEq

/-- First component of the Python return pair: `0` only at
`return 0, "Modified successfully"`, `1` at every other return site. -/
def pyStatus : MStatus → Nat
  | .applied => 0
  | _ => 1

/-- Steps of `modify_code` after the candidate content has been built
(source lines 220-235): run the validator; on failure restore the target
from the backup and report the rejection, on success write the candidate
to the target.  `content` is the content of the backup file at this point:
the caller wrote exactly the original target content to `backup_path` just
before and nothing has touched it since, so the restore read
(`open(backup, "r")` at line 225) yields `content`.  A write fault on
either path raises and is caught by the outer `except`. -/
def mcValidated (validate : String → Except String Unit) (faults : Faults)
    (fs1 : FS) (filename content candidate : String) : MStatus × FS :=
  match validate candidate with
  | .error diag =>
    match faults.restoreW with
    | .fail k => (.restoreError k, fs1.write filename (content.take k))
    | .ok => (.rejected diag, fs1.write filename content)
  | .ok _ =>
    match faults.finalW with
    | .fail k => (.writeError k, fs1.write filename (candidate.take k))
    | .ok => (.applied, fs1.write filename candidate)

/-- The slice assignment `lines[start_line - 1 : end_line] = [new_code + "\n"]`
followed by `"".join(lines)`: Python assigns to the (possibly empty) subrange
`[start_line - 1, end_line)` of the line list, so the new line list is
`take (start_line - 1) ++ [new_code + "\n"] ++ drop (max (start_line - 1) end_line)`.
Only evaluated after the range check, so both indices are nonnegative. -/
def spliceCandidate (content : String) (start_line end_line : Int)
    (new_code : String) : String :=
  String.join ((pyReadlines content).take (start_line - 1).toNat ++
    [new_code ++ "\n"] ++
    (pyReadlines content).drop (max (start_line - 1).toNat end_line.toNat))

/-- Steps of `modify_code` after the backup has been written (source lines
212-235): re-read the target (its content is still `content`: the only
write so far went to `backup_path ≠ filename`), check
`0 < start_line <= len(lines) and 0 < end_line <= len(lines)`, then splice
and validate. -/
def mcRanged (validate : String → Except String Unit) (faults : Faults)
    (fs1 : FS) (filename : String) (start_line end_line : Int)
    (new_code content : String) : MStatus × FS :=
  let n : Int := ((pyReadlines content).length : Int)
  if 0 < start_line ∧ start_line ≤ n ∧ 0 < end_line ∧ end_line ≤ n then
    mcValidated validate faults fs1 filename content
      (spliceCandidate content start_line end_line new_code)
  else
    (.rangeError, fs1)

/-- The `modify_code` function (source lines 198-238).  Opens the target
for reading (raising `FileNotFoundError`, caught by the outer `except`, if
it does not exist), copies its content to `filename + ".bak"`, then
proceeds with the range check, splice, validation and save. -/
def modify_code (validate : String → Except String Unit) (faults : Faults)
    (fs : FS) (filename : String) (start_line end_line : Int)
    (new_code : String) : MStatus × FS :=
  match fs filename with
  | none => (.notFound, fs)
  | some content =>
    match faults.backupW with
    | .fail k => (.backupError k, fs.write (filename ++ ".bak") (content.take k))
    | .ok =>
      mcRanged validate faults (fs.write (filename ++ ".bak") content)
        filename start_line end_line new_code content

/-- A validator that accepts every candidate. -/
def acceptV : String → Except String Unit := fun _ => .ok ()

/-- A validator that rejects every candidate with a fixed diagnostic. -/
def rejectV : String → Except String Unit := fun _ => .error "invalid syntax"

/-- A concrete initial filesystem: one target file of three lines, no
backup file. -/
def fs3 : FS := fun p => if p = "t.py" then some "a\nb\nc\n" else none

/-- A concrete initial filesystem: one target file of five lines
`a b c d e`, no backup file. -/
def fs5 : FS := fun p => if p = "u.py" then some "a\nb\nc\nd\ne\n" else none

lemma bak_ne (s : String) : ¬ s ++ ".bak" = s := by
  intro h
  have hl := congrArg String.length h
  rw [String.length_append] at hl
  have h4 : (".bak" : String).length = 4 := rfl
  omega

lemma FS.write_self (fs : FS) (p c : String) : fs.write p c p = some c := by
  simp [FS.write]

lemma FS.write_other (fs : FS) (p c q : String) (h : ¬ q = p) :
    fs.write p c q = fs q := by
  simp [FS.write, h]

/-- `modify_code` on a missing target: the initial `open(filename, "r")`
raises before the backup is even opened; no write happens. -/
lemma mc_notFound (validate : String → Except String Unit) (faults : Faults)
    (fs : FS) (fn : String) (sline eline : Int) (nc : String)
    (hfs : fs fn = none) :
    modify_code validate faults fs fn sline eline nc = (.notFound, fs) := by
  unfold modify_code
  rw [hfs]

/-- `modify_code` when the backup write raises: the backup file holds a
prefix of the original content, the target is untouched, and the outer
`except` reports the failure. -/
lemma mc_backupError (validate : String → Except String Unit) (faults : Faults)
    (fs : FS) (fn content : String) (sline eline : Int) (nc : String) (k : Nat)
    (hfs : fs fn = some content) (hb : faults.backupW = .fail k) :
    modify_code validate faults fs fn sline eline nc =
      (.backupError k, fs.write (fn ++ ".bak") (content.take k)) := by
  unfold modify_code
  rw [hfs, hb]

/-- When either endpoint of the line range lies outside `[1, line_count]`,
`modify_code` returns at the `"Invalid line range"` site; the backup copy
was already written (the backup precedes the range check in the source),
and nothing else changed. -/
lemma mc_rangeError (validate : String → Except String Unit) (faults : Faults)
    (fs : FS) (fn content : String) (sline eline : Int) (nc : String)
    (hfs : fs fn = some content) (hb : faults.backupW = .ok)
    (hr : ¬ (0 < sline ∧ sline ≤ ((pyReadlines content).length : Int) ∧
             0 < eline ∧ eline ≤ ((pyReadlines content).length : Int))) :
    modify_code validate faults fs fn sline eline nc =
      (.rangeError, fs.write (fn ++ ".bak") content) := by
  unfold modify_code
  rw [hfs, hb]
  simp only [mcRanged, if_neg hr]

/-- When the range passes the source's check, `modify_code` reaches
validation with the spliced candidate, the backup already written. -/
lemma mc_checked (validate : String → Except String Unit) (faults : Faults)
    (fs : FS) (fn content : String) (sline eline : Int) (nc : String)
    (hfs : fs fn = some content) (hb : faults.backupW = .ok)
    (hc : 0 < sline ∧ sline ≤ ((pyReadlines content).length : Int) ∧
          0 < eline ∧ eline ≤ ((pyReadlines content).length : Int)) :
    modify_code validate faults fs fn sline eline nc =
      mcValidated validate faults (fs.write (fn ++ ".bak") content) fn content
        (spliceCandidate content sline eline nc) := by
  unfold modify_code
  rw [hfs, hb]
  simp only [mcRanged, if_pos hc]

/-- For an ordered range `start_line ≤ end_line` the assigned slice is
exactly the inclusive line range: the candidate is the lines before
`start_line`, then `new_code` with a newline appended, then the lines
after `end_line`. -/
lemma spliceCandidate_of_le (content : String) (sline eline : Int) (nc : String)
    (h2 : sline ≤ eline) :
    spliceCandidate content sline eline nc =
      String.join ((pyReadlines content).take (sline - 1).toNat ++
        [nc ++ "\n"] ++ (pyReadlines content).drop eline.toNat) := by
  unfold spliceCandidate
  have hmax : max (sline - 1).toNat eline.toNat = eline.toNat := by
    have : (sline - 1).toNat ≤ eline.toNat := Int.toNat_le_toNat (by omega)
    omega
  rw [hmax]

/-- The validation stage when the validator rejects and the restore write
completes: the target is rewritten from the backup content. -/
lemma mcValidated_rejected (validate : String → Except String Unit)
    (faults : Faults) (fs1 : FS) (fn content cand diag : String)
    (hv : validate cand = .error diag) (hrw : faults.restoreW = .ok) :
    mcValidated validate faults fs1 fn content cand =
      (.rejected diag, fs1.write fn content) := by
  unfold mcValidated
  rw [hv, hrw]

/-- The validation stage when the validator rejects and the restore write
itself raises: the target holds a prefix of the backup content. -/
lemma mcValidated_restoreFail (validate : String → Except String Unit)
    (faults : Faults) (fs1 : FS) (fn content cand diag : String) (k : Nat)
    (hv : validate cand = .error diag) (hrw : faults.restoreW = .fail k) :
    mcValidated validate faults fs1 fn content cand =
      (.restoreError k, fs1.write fn (content.take k)) := by
  unfold mcValidated
  rw [hv, hrw]

/-- The validation stage when the validator accepts and the final save
completes: the target now holds the candidate. -/
lemma mcValidated_applied (validate : String → Except String Unit)
    (faults : Faults) (fs1 : FS) (fn content cand : String) (u : Unit)
    (hv : validate cand = .ok u) (hfw : faults.finalW = .ok) :
    mcValidated validate faults fs1 fn content cand =
      (.applied, fs1.write fn cand) := by
  unfold mcValidated
  rw [hv, hfw]

/-- The validation stage when the validator accepts but the final save
raises: the target holds a prefix of the candidate, and no restore is
attempted (the outer `except` only returns the failure). -/
lemma mcValidated_writeFail (validate : String → Except String Unit)
    (faults : Faults) (fs1 : FS) (fn content cand : String) (u : Unit) (k : Nat)
    (hv : validate cand = .ok u) (hfw : faults.finalW = .fail k) :
    mcValidated validate faults fs1 fn content cand =
      (.writeError k, fs1.write fn (cand.take k)) := by
  unfold mcValidated
  rw [hv, hfw]

example : pyReadlines "a\nb\nc\n" = ["a\n", "b\n", "c\n"] := by decide
example : pyReadlines "a\nb" = ["a\n", "b"] := by decide
example : pyReadlines "" = [] := by decide
example : (modify_code acceptV noFaults fs3 "t.py" 2 2 "X").1 = .applied := by decide
example : (modify_code acceptV noFaults fs3 "t.py" 2 2 "X").2 "t.py" = some "a\nX\nc\n" := by
  decide
example : (modify_code acceptV noFaults fs3 "t.py" 4 4 "X").1 = .rangeError := by decide
example : (modify_code acceptV noFaults fs3 "t.py" 2 1 "X").2 "t.py" = some "a\nX\nb\nc\n" := by
  decide

/-- C1 counterexample.  The claim fails on the code at two concrete
inputs.  (i) On a 3-line file with `start_line = end_line = 4` the call
does return the range error, but the backup file — absent beforehand — has
been created holding the original content, because the source writes the
backup (line 208) before the range check (line 215).  (ii) With
`start_line = 2, end_line = 1` (an invalid range per the claim, since
`end_line < start_line`) the call does not return a range error at all: it
applies, inserting the replacement before line 2. -/
theorem C1_counterexample :
    ((modify_code acceptV noFaults fs3 "t.py" 4 4 "X").1 = MStatus.rangeError ∧
      fs3 ("t.py" ++ ".bak") = none ∧
      (modify_code acceptV noFaults fs3 "t.py" 4 4 "X").2 ("t.py" ++ ".bak") =
        some "a\nb\nc\n") ∧
    ((modify_code acceptV noFaults fs3 "t.py" 2 1 "X").1 = MStatus.applied ∧
      (modify_code acceptV noFaults fs3 "t.py" 2 1 "X").2 "t.py" =
        some "a\nX\nb\nc\n") := by
  exact ⟨⟨by decide, by decide, by decide⟩, ⟨by decide, by decide⟩⟩

/-- C1 (amended).  If `start_line` or `end_line` lies outside
`[1, line_count]` — the code's actual invalidity test, which does not
reject `end_line < start_line` on its own — then `modify_code` returns the
range error and does not mutate the target, but the backup file has been
created, holding a byte-for-byte copy of the original content. -/
theorem C1_rangeError_keeps_target_but_writes_backup
    (validate : String → Except String Unit) (faults : Faults)
    (fs : FS) (fn content : String) (sline eline : Int) (nc : String)
    (hfs : fs fn = some content) (hb : faults.backupW = .ok)
    (hr : sline < 1 ∨ ((pyReadlines content).length : Int) < sline ∨
          eline < 1 ∨ ((pyReadlines content).length : Int) < eline) :
    (modify_code validate faults fs fn sline eline nc).1 = MStatus.rangeError ∧
    (modify_code validate faults fs fn sline eline nc).2 fn = fs fn ∧
    (modify_code validate faults fs fn sline eline nc).2 (fn ++ ".bak") =
      some content := by
  have hr' : ¬ (0 < sline ∧ sline ≤ ((pyReadlines content).length : Int) ∧
      0 < eline ∧ eline ≤ ((pyReadlines content).length : Int)) := by omega
  rw [mc_rangeError validate faults fs fn content sline eline nc hfs hb hr']
  refine ⟨rfl, ?_, ?_⟩
  · exact FS.write_other fs (fn ++ ".bak") content fn (fun h => bak_ne fn h.symm)
  · exact FS.write_self fs (fn ++ ".bak") content

/-- C1 witness: the amended theorem applied to the 3-line file with
`start_line = end_line = 5`. -/
theorem C1_witness :
    fs3 "t.py" = some "a\nb\nc\n" ∧
    ((5 : Int) < 1 ∨ ((pyReadlines "a\nb\nc\n").length : Int) < 5 ∨
      (5 : Int) < 1 ∨ ((pyReadlines "a\nb\nc\n").length : Int) < 5) ∧
    ((modify_code acceptV noFaults fs3 "t.py" 5 5 "X").1 = MStatus.rangeError ∧
     (modify_code acceptV noFaults fs3 "t.py" 5 5 "X").2 "t.py" = fs3 "t.py" ∧
     (modify_code acceptV noFaults fs3 "t.py" 5 5 "X").2 ("t.py" ++ ".bak") =
       some "a\nb\nc\n") :=
  ⟨by decide, by decide,
    C1_rangeError_keeps_target_but_writes_backup acceptV noFaults fs3 "t.py"
      "a\nb\nc\n" 5 5 "X" (by decide) rfl (by decide)⟩

/-- C2.  For a valid ordered in-range request whose candidate the
validator accepts, `modify_code` applies and the target afterwards holds
the original lines before `start_line`, then the replacement block (one
unit, the source appends a final newline to it), then the original lines
after `end_line`. -/
theorem C2_applied_splice
    (validate : String → Except String Unit) (faults : Faults)
    (fs : FS) (fn content : String) (sline eline : Int) (nc : String)
    (hfs : fs fn = some content) (hb : faults.backupW = .ok)
    (hfw : faults.finalW = .ok)
    (h1 : 0 < sline) (h2 : sline ≤ eline)
    (h3 : eline ≤ ((pyReadlines content).length : Int))
    (hv : validate (String.join ((pyReadlines content).take (sline - 1).toNat ++
            [nc ++ "\n"] ++ (pyReadlines content).drop eline.toNat)) = .ok ()) :
    (modify_code validate faults fs fn sline eline nc).1 = MStatus.applied ∧
    (modify_code validate faults fs fn sline eline nc).2 fn =
      some (String.join ((pyReadlines content).take (sline - 1).toNat ++
        [nc ++ "\n"] ++ (pyReadlines content).drop eline.toNat)) := by
  have hc : 0 < sline ∧ sline ≤ ((pyReadlines content).length : Int) ∧
      0 < eline ∧ eline ≤ ((pyReadlines content).length : Int) :=
    ⟨h1, le_trans h2 h3, lt_of_lt_of_le h1 h2, h3⟩
  rw [mc_checked validate faults fs fn content sline eline nc hfs hb hc,
    spliceCandidate_of_le content sline eline nc h2] at *
  rw [mcValidated_applied validate faults _ fn content _ () hv hfw]
  exact ⟨rfl, FS.write_self _ fn _⟩

/-- C2 witness: the spec's concrete scenario — five lines `a b c d e`,
`start_line = 2`, `end_line = 3`, replacement `"X\nY"`, accepting
validator — yields `Applied` and content `a X Y d e`. -/
theorem C2_witness :
    (0 : Int) < 2 ∧ (2 : Int) ≤ 3 ∧
    (3 : Int) ≤ ((pyReadlines "a\nb\nc\nd\ne\n").length : Int) ∧
    (modify_code acceptV noFaults fs5 "u.py" 2 3 "X\nY").1 = MStatus.applied ∧
    (modify_code acceptV noFaults fs5 "u.py" 2 3 "X\nY").2 "u.py" =
      some "a\nX\nY\nd\ne\n" ∧
    pyReadlines "a\nX\nY\nd\ne\n" = ["a\n", "X\n", "Y\n", "d\n", "e\n"] := by
  have h := C2_applied_splice acceptV noFaults fs5 "u.py" "a\nb\nc\nd\ne\n"
    2 3 "X\nY" (by decide) rfl rfl (by decide) (by decide) (by decide) rfl
  exact ⟨by decide, by decide, by decide, h.1, by rw [h.2]; decide, by decide⟩

/-- C3.  Whenever the validator rejects the candidate (the request having
reached validation: target readable, backup written, range accepted by the
code's check) and the restore write completes, `modify_code` returns the
rejection carrying the validator's diagnostic and the target afterwards
holds exactly its original content. -/
theorem C3_rejected_restores
    (validate : String → Except String Unit) (faults : Faults)
    (fs : FS) (fn content : String) (sline eline : Int) (nc diag : String)
    (hfs : fs fn = some content) (hb : faults.backupW = .ok)
    (hrw : faults.restoreW = .ok)
    (hc : 0 < sline ∧ sline ≤ ((pyReadlines content).length : Int) ∧
          0 < eline ∧ eline ≤ ((pyReadlines content).length : Int))
    (hv : validate (spliceCandidate content sline eline nc) = .error diag) :
    (modify_code validate faults fs fn sline eline nc).1 =
      MStatus.rejected diag ∧
    (modify_code validate faults fs fn sline eline nc).2 fn = fs fn := by
  rw [mc_checked validate faults fs fn content sline eline nc hfs hb hc]
  rw [mcValidated_rejected validate faults _ fn content _ diag hv hrw]
  refine ⟨rfl, ?_⟩
  show (fs.write (fn ++ ".bak") content).write fn content fn = fs fn
  rw [FS.write_self _ fn content]
  exact hfs.symm

/-- C3 witness: the spec's concrete rejection scenario — five lines,
`start_line = 2`, `end_line = 3`, replacement `"bad("`, rejecting
validator — yields `Rejected` and the target file restored unchanged. -/
theorem C3_witness :
    fs5 "u.py" = some "a\nb\nc\nd\ne\n" ∧
    ((0 : Int) < 2 ∧ (2 : Int) ≤ ((pyReadlines "a\nb\nc\nd\ne\n").length : Int) ∧
     (0 : Int) < 3 ∧ (3 : Int) ≤ ((pyReadlines "a\nb\nc\nd\ne\n").length : Int)) ∧
    rejectV (spliceCandidate "a\nb\nc\nd\ne\n" 2 3 "bad(") =
      Except.error "invalid syntax" ∧
    ((modify_code rejectV noFaults fs5 "u.py" 2 3 "bad(").1 =
       MStatus.rejected "invalid syntax" ∧
     (modify_code rejectV noFaults fs5 "u.py" 2 3 "bad(").2 "u.py" =
       fs5 "u.py") :=
  ⟨by decide, by decide, rfl,
    C3_rejected_restores rejectV noFaults fs5 "u.py" "a\nb\nc\nd\ne\n"
      2 3 "bad(" "invalid syntax" (by decide) rfl rfl (by decide) rfl⟩

/-- A fault schedule where only the final save raises, after one character
of the candidate reached the (truncated) target file. -/
def failFinal : Faults := ⟨.ok, .ok, .fail 1⟩

/-- C4 counterexample.  On the 3-line file, replacing line 2 by `"X"` with
an accepting validator but a final save that raises after one character:
the outcome is the write failure — an error kind other than `Applied` and
other than `RestoreError` — yet the target file is left holding the
partial write `"a"` instead of its original content, because the source's
outer `except` returns the failure without restoring from the backup. -/
theorem C4_counterexample :
    (modify_code acceptV failFinal fs3 "t.py" 2 2 "X").1 = MStatus.writeError 1 ∧
    (modify_code acceptV failFinal fs3 "t.py" 2 2 "X").2 "t.py" = some "a" ∧
    fs3 "t.py" = some "a\nb\nc\n" ∧
    ¬ (modify_code acceptV failFinal fs3 "t.py" 2 2 "X").2 "t.py" =
        fs3 "t.py" := by
  exact ⟨by decide, by decide, by decide, by decide⟩

/-- C4 (amended).  Every outcome among `NotFound`, `RangeError`,
`BackupError` and `Rejected` leaves the target file holding its original
content; but atomicity does not extend to a failed final write, which can
leave the target holding a partial copy of the candidate with no restore
attempted. -/
theorem C4_errors_leave_target_unchanged
    (validate : String → Except String Unit) (faults : Faults)
    (fs : FS) (fn : String) (sline eline : Int) (nc : String)
    (h : (modify_code validate faults fs fn sline eline nc).1 = MStatus.notFound ∨
         (modify_code validate faults fs fn sline eline nc).1 = MStatus.rangeError ∨
         (∃ k, (modify_code validate faults fs fn sline eline nc).1 =
            MStatus.backupError k) ∨
         (∃ d, (modify_code validate faults fs fn sline eline nc).1 =
            MStatus.rejected d)) :
    (modify_code validate faults fs fn sline eline nc).2 fn = fs fn := by
  cases hfs : fs fn with
  | none =>
    rw [mc_notFound validate faults fs fn sline eline nc hfs]
    exact hfs
  | some content =>
    cases hbw : faults.backupW with
    | fail k =>
      rw [mc_backupError validate faults fs fn content sline eline nc k hfs hbw]
      show fs.write (fn ++ ".bak") (content.take k) fn = some content
      rw [FS.write_other fs (fn ++ ".bak") (content.take k) fn
        (fun hh => bak_ne fn hh.symm)]
      exact hfs
    | ok =>
      by_cases hc : 0 < sline ∧ sline ≤ ((pyReadlines content).length : Int) ∧
          0 < eline ∧ eline ≤ ((pyReadlines content).length : Int)
      · rw [mc_checked validate faults fs fn content sline eline nc hfs hbw hc]
          at h ⊢
        cases hv : validate (spliceCandidate content sline eline nc) with
        | error diag =>
          cases hrw : faults.restoreW with
          | fail k =>
            rw [mcValidated_restoreFail validate faults _ fn content _ diag k
              hv hrw] at h
            simp at h
          | ok =>
            rw [mcValidated_rejected validate faults _ fn content _ diag hv hrw]
            exact FS.write_self _ fn content
        | ok u =>
          cases hfw : faults.finalW with
          | fail k =>
            rw [mcValidated_writeFail validate faults _ fn content _ u k hv hfw]
              at h
            simp at h
          | ok =>
            rw [mcValidated_applied validate faults _ fn content _ u hv hfw] at h
            simp at h
      · rw [mc_rangeError validate faults fs fn content sline eline nc hfs hbw hc]
        show fs.write (fn ++ ".bak") content fn = some content
        rw [FS.write_other fs (fn ++ ".bak") content fn
          (fun hh => bak_ne fn hh.symm)]
        exact hfs

/-- C4 witness: the amended theorem applied to a concrete rejected edit —
the target file is unchanged afterwards. -/
theorem C4_witness :
    ((modify_code rejectV noFaults fs3 "t.py" 1 1 "Z").1 = MStatus.notFound ∨
     (modify_code rejectV noFaults fs3 "t.py" 1 1 "Z").1 = MStatus.rangeError ∨
     (∃ k, (modify_code rejectV noFaults fs3 "t.py" 1 1 "Z").1 =
        MStatus.backupError k) ∨
     (∃ d, (modify_code rejectV noFaults fs3 "t.py" 1 1 "Z").1 =
        MStatus.rejected d)) ∧
    (modify_code rejectV noFaults fs3 "t.py" 1 1 "Z").2 "t.py" = fs3 "t.py" := by
  have hh : (modify_code rejectV noFaults fs3 "t.py" 1 1 "Z").1 =
      MStatus.notFound ∨
      (modify_code rejectV noFaults fs3 "t.py" 1 1 "Z").1 = MStatus.rangeError ∨
      (∃ k, (modify_code rejectV noFaults fs3 "t.py" 1 1 "Z").1 =
        MStatus.backupError k) ∨
      (∃ d, (modify_code rejectV noFaults fs3 "t.py" 1 1 "Z").1 =
        MStatus.rejected d) :=
    Or.inr (Or.inr (Or.inr ⟨"invalid syntax", by decide⟩))
  exact ⟨hh, C4_errors_leave_target_unchanged rejectV noFaults fs3 "t.py"
    1 1 "Z" hh⟩

/-- C5 counterexample.  On the 3-line file, replacing line 2 by the empty
string with an accepting validator: the call applies, but the resulting
content is `"a\n\nc\n"` — the range has been replaced by one empty line
(the source unconditionally appends a newline to the replacement), not
deleted; a zero-length unit would have produced `"a\nc\n"`. -/
theorem C5_counterexample :
    (modify_code acceptV noFaults fs3 "t.py" 2 2 "").1 = MStatus.applied ∧
    (modify_code acceptV noFaults fs3 "t.py" 2 2 "").2 "t.py" =
      some "a\n\nc\n" ∧
    pyReadlines "a\n\nc\n" = ["a\n", "\n", "c\n"] ∧
    ¬ (modify_code acceptV noFaults fs3 "t.py" 2 2 "").2 "t.py" =
        some "a\nc\n" := by
  exact ⟨by decide, by decide, by decide, by decide⟩

/-- C5 (amended).  A valid in-range request whose `replacement_text` is
empty replaces the range by a single empty line — the newline the source
appends to every replacement — rather than by a zero-length unit. -/
theorem C5_empty_replacement_leaves_blank_line
    (validate : String → Except String Unit) (faults : Faults)
    (fs : FS) (fn content : String) (sline eline : Int)
    (hfs : fs fn = some content) (hb : faults.backupW = .ok)
    (hfw : faults.finalW = .ok)
    (h1 : 0 < sline) (h2 : sline ≤ eline)
    (h3 : eline ≤ ((pyReadlines content).length : Int))
    (hv : validate (String.join ((pyReadlines content).take (sline - 1).toNat ++
            ["\n"] ++ (pyReadlines content).drop eline.toNat)) = .ok ()) :
    (modify_code validate faults fs fn sline eline "").1 = MStatus.applied ∧
    (modify_code validate faults fs fn sline eline "").2 fn =
      some (String.join ((pyReadlines content).take (sline - 1).toNat ++
        ["\n"] ++ (pyReadlines content).drop eline.toNat)) := by
  have hc : 0 < sline ∧ sline ≤ ((pyReadlines content).length : Int) ∧
      0 < eline ∧ eline ≤ ((pyReadlines content).length : Int) :=
    ⟨h1, le_trans h2 h3, lt_of_lt_of_le h1 h2, h3⟩
  rw [mc_checked validate faults fs fn content sline eline "" hfs hb hc,
    spliceCandidate_of_le content sline eline "" h2,
    show ("" ++ "\n" : String) = "\n" from rfl,
    mcValidated_applied validate faults _ fn content _ () hv hfw]
  exact ⟨rfl, FS.write_self _ fn _⟩

/-- C5 witness: the amended theorem applied to the 3-line file, deleting
line 2 — the result is `"a\n\nc\n"`, a blank line in place of `"b\n"`. -/
theorem C5_witness :
    fs3 "t.py" = some "a\nb\nc\n" ∧ (0 : Int) < 2 ∧ (2 : Int) ≤ 2 ∧
    (2 : Int) ≤ ((pyReadlines "a\nb\nc\n").length : Int) ∧
    (modify_code acceptV noFaults fs3 "t.py" 2 2 "").1 = MStatus.applied ∧
    (modify_code acceptV noFaults fs3 "t.py" 2 2 "").2 "t.py" =
      some "a\n\nc\n" := by
  have h := C5_empty_replacement_leaves_blank_line acceptV noFaults fs3 "t.py"
    "a\nb\nc\n" 2 2 (by decide) rfl rfl (by decide) (by decide) (by decide) rfl
  exact ⟨by decide, by decide, by decide, by decide, h.1, by rw [h.2]; decide⟩

/-- C6.  Whenever a call of `modify_code` mutates the target file, the
backup file afterwards holds a byte-for-byte copy of the target's
pre-call content — the backup copy is the first write the source
performs, and a failed backup write aborts before any mutation (so the
hypothesis of this theorem can then never hold). -/
theorem C6_mutation_implies_backup
    (validate : String → Except String Unit) (faults : Faults)
    (fs : FS) (fn : String) (sline eline : Int) (nc : String)
    (h : ¬ (modify_code validate faults fs fn sline eline nc).2 fn = fs fn) :
    (modify_code validate faults fs fn sline eline nc).2 (fn ++ ".bak") =
      fs fn := by
  have hne : ¬ fn ++ ".bak" = fn := bak_ne fn
  have hne' : ¬ fn = fn ++ ".bak" := fun hh => bak_ne fn hh.symm
  cases hfs : fs fn with
  | none =>
    exact absurd
      (by rw [mc_notFound validate faults fs fn sline eline nc hfs]) h
  | some content =>
    cases hbw : faults.backupW with
    | fail k =>
      refine absurd ?_ h
      rw [mc_backupError validate faults fs fn content sline eline nc k hfs hbw]
      show fs.write (fn ++ ".bak") (content.take k) fn = fs fn
      rw [FS.write_other fs (fn ++ ".bak") (content.take k) fn hne']
    | ok =>
      by_cases hc : 0 < sline ∧ sline ≤ ((pyReadlines content).length : Int) ∧
          0 < eline ∧ eline ≤ ((pyReadlines content).length : Int)
      · rw [mc_checked validate faults fs fn content sline eline nc hfs hbw hc]
          at h ⊢
        cases hv : validate (spliceCandidate content sline eline nc) with
        | error diag =>
          cases hrw : faults.restoreW with
          | fail k =>
            rw [mcValidated_restoreFail validate faults _ fn content _ diag k
              hv hrw]
            show ((fs.write (fn ++ ".bak") content).write fn
              (content.take k)) (fn ++ ".bak") = some content
            rw [FS.write_other _ fn (content.take k) (fn ++ ".bak") hne]
            exact FS.write_self fs (fn ++ ".bak") content
          | ok =>
            refine absurd ?_ h
            rw [mcValidated_rejected validate faults _ fn content _ diag hv hrw]
            show (fs.write (fn ++ ".bak") content).write fn content fn = fs fn
            rw [FS.write_self _ fn content]
            exact hfs.symm
        | ok u =>
          cases hfw : faults.finalW with
          | fail k =>
            rw [mcValidated_writeFail validate faults _ fn content _ u k hv hfw]
            show ((fs.write (fn ++ ".bak") content).write fn
              ((spliceCandidate content sline eline nc).take k)) (fn ++ ".bak") =
              some content
            rw [FS.write_other _ fn _ (fn ++ ".bak") hne]
            exact FS.write_self fs (fn ++ ".bak") content
          | ok =>
            rw [mcValidated_applied validate faults _ fn content _ u hv hfw]
            show ((fs.write (fn ++ ".bak") content).write fn
              (spliceCandidate content sline eline nc)) (fn ++ ".bak") =
              some content
            rw [FS.write_other _ fn _ (fn ++ ".bak") hne]
            exact FS.write_self fs (fn ++ ".bak") content
      · refine absurd ?_ h
        rw [mc_rangeError validate faults fs fn content sline eline nc hfs hbw hc]
        show fs.write (fn ++ ".bak") content fn = fs fn
        rw [FS.write_other fs (fn ++ ".bak") content fn hne']

/-- C6 witness: a concrete applied edit mutates the target, and the
backup file afterwards holds the original content. -/
theorem C6_witness :
    ¬ (modify_code acceptV noFaults fs3 "t.py" 2 2 "X").2 "t.py" =
        fs3 "t.py" ∧
    (modify_code acceptV noFaults fs3 "t.py" 2 2 "X").2 ("t.py" ++ ".bak") =
      fs3 "t.py" :=
  ⟨by decide,
    C6_mutation_implies_backup acceptV noFaults fs3 "t.py" 2 2 "X" (by decide)⟩

/-- C7.  Whenever `modify_code` applies, the backup file still exists
afterwards, holding the pre-call target content: the success path never
deletes it. -/
theorem C7_backup_retained_on_success
    (validate : String → Except String Unit) (faults : Faults)
    (fs : FS) (fn : String) (sline eline : Int) (nc : String)
    (h : (modify_code validate faults fs fn sline eline nc).1 =
      MStatus.applied) :
    ∃ c, fs fn = some c ∧
      (modify_code validate faults fs fn sline eline nc).2 (fn ++ ".bak") =
        some c := by
  cases hfs : fs fn with
  | none =>
    rw [mc_notFound validate faults fs fn sline eline nc hfs] at h
    simp at h
  | some content =>
    cases hbw : faults.backupW with
    | fail k =>
      rw [mc_backupError validate faults fs fn content sline eline nc k hfs hbw]
        at h
      simp at h
    | ok =>
      by_cases hc : 0 < sline ∧ sline ≤ ((pyReadlines content).length : Int) ∧
          0 < eline ∧ eline ≤ ((pyReadlines content).length : Int)
      · rw [mc_checked validate faults fs fn content sline eline nc hfs hbw hc]
          at h ⊢
        cases hv : validate (spliceCandidate content sline eline nc) with
        | error diag =>
          cases hrw : faults.restoreW with
          | fail k =>
            rw [mcValidated_restoreFail validate faults _ fn content _ diag k
              hv hrw] at h
            simp at h
          | ok =>
            rw [mcValidated_rejected validate faults _ fn content _ diag hv hrw]
              at h
            simp at h
        | ok u =>
          cases hfw : faults.finalW with
          | fail k =>
            rw [mcValidated_writeFail validate faults _ fn content _ u k hv hfw]
              at h
            simp at h
          | ok =>
            refine ⟨content, rfl, ?_⟩
            rw [mcValidated_applied validate faults _ fn content _ u hv hfw]
            show ((fs.write (fn ++ ".bak") content).write fn
              (spliceCandidate content sline eline nc)) (fn ++ ".bak") =
              some content
            rw [FS.write_other _ fn _ (fn ++ ".bak") (bak_ne fn)]
            exact FS.write_self fs (fn ++ ".bak") content
      · rw [mc_rangeError validate faults fs fn content sline eline nc hfs hbw hc]
          at h
        simp at h

/-- C7 witness: a concrete applied edit leaves the backup file on disk
with the original content. -/
theorem C7_witness :
    (modify_code acceptV noFaults fs3 "t.py" 2 2 "X").1 = MStatus.applied ∧
    ∃ c, fs3 "t.py" = some c ∧
      (modify_code acceptV noFaults fs3 "t.py" 2 2 "X").2 ("t.py" ++ ".bak") =
        some c :=
  ⟨by decide,
    C7_backup_retained_on_success acceptV noFaults fs3 "t.py" 2 2 "X"
      (by decide)⟩

/-- C8 counterexample.  `start_line = 3, end_line = 2` on the 3-line file
is an invalid range in the claim's sense (`end_line < start_line`), yet
the first call produces no error at all: it applies, inserting the
replacement before line 3 and mutating the target — contradicting both
"the same error kind on both calls" and "neither call mutates the target
file". -/
theorem C8_counterexample :
    (modify_code acceptV noFaults fs3 "t.py" 3 2 "X").1 = MStatus.applied ∧
    (modify_code acceptV noFaults fs3 "t.py" 3 2 "X").2 "t.py" =
      some "a\nb\nX\nc\n" ∧
    ¬ (modify_code acceptV noFaults fs3 "t.py" 3 2 "X").2 "t.py" =
        fs3 "t.py" := by
  exact ⟨by decide, by decide, by decide⟩

/-- C8 (amended).  For every range with an endpoint outside
`[1, line_count]` — the code's invalidity test, which does not treat
`end_line < start_line` by itself as invalid — calling `modify_code` twice
with that same range returns the range error both times and neither call
mutates the target file. -/
theorem C8_invalid_range_idempotent
    (validate : String → Except String Unit) (faults : Faults)
    (fs : FS) (fn content : String) (sline eline : Int) (nc : String)
    (hfs : fs fn = some content) (hb : faults.backupW = .ok)
    (hr : sline < 1 ∨ ((pyReadlines content).length : Int) < sline ∨
          eline < 1 ∨ ((pyReadlines content).length : Int) < eline) :
    (modify_code validate faults fs fn sline eline nc).1 = MStatus.rangeError ∧
    (modify_code validate faults fs fn sline eline nc).2 fn = fs fn ∧
    (modify_code validate faults
        (modify_code validate faults fs fn sline eline nc).2
        fn sline eline nc).1 = MStatus.rangeError ∧
    (modify_code validate faults
        (modify_code validate faults fs fn sline eline nc).2
        fn sline eline nc).2 fn = fs fn := by
  have hne' : ¬ fn = fn ++ ".bak" := fun hh => bak_ne fn hh.symm
  have hr' : ¬ (0 < sline ∧ sline ≤ ((pyReadlines content).length : Int) ∧
      0 < eline ∧ eline ≤ ((pyReadlines content).length : Int)) := by omega
  have key : ∀ gs : FS, gs fn = some content →
      modify_code validate faults gs fn sline eline nc =
        (.rangeError, gs.write (fn ++ ".bak") content) := fun gs hgs =>
    mc_rangeError validate faults gs fn content sline eline nc hgs hb hr'
  have e1 := key fs hfs
  have hfs1 : (fs.write (fn ++ ".bak") content) fn = some content := by
    rw [FS.write_other fs (fn ++ ".bak") content fn hne']
    exact hfs
  have e2 := key (fs.write (fn ++ ".bak") content) hfs1
  refine ⟨by rw [e1], ?_, ?_, ?_⟩
  · rw [e1]
    show fs.write (fn ++ ".bak") content fn = fs fn
    rw [FS.write_other fs (fn ++ ".bak") content fn hne']
  · rw [e1]
    show (modify_code validate faults (fs.write (fn ++ ".bak") content)
      fn sline eline nc).1 = MStatus.rangeError
    rw [e2]
  · rw [e1]
    show (modify_code validate faults (fs.write (fn ++ ".bak") content)
      fn sline eline nc).2 fn = fs fn
    rw [e2]
    show (fs.write (fn ++ ".bak") content).write (fn ++ ".bak") content fn =
      fs fn
    rw [FS.write_other _ (fn ++ ".bak") content fn hne',
      FS.write_other fs (fn ++ ".bak") content fn hne']

/-- C8 witness: the amended theorem applied to the 3-line file with
`start_line = 0` — both calls return the range error, the target is
unchanged after each. -/
theorem C8_witness :
    fs3 "t.py" = some "a\nb\nc\n" ∧
    ((0 : Int) < 1 ∨ ((pyReadlines "a\nb\nc\n").length : Int) < 0 ∨
      (2 : Int) < 1 ∨ ((pyReadlines "a\nb\nc\n").length : Int) < 2) ∧
    ((modify_code acceptV noFaults fs3 "t.py" 0 2 "X").1 =
       MStatus.rangeError ∧
     (modify_code acceptV noFaults fs3 "t.py" 0 2 "X").2 "t.py" =
       fs3 "t.py" ∧
     (modify_code acceptV noFaults
         (modify_code acceptV noFaults fs3 "t.py" 0 2 "X").2
         "t.py" 0 2 "X").1 = MStatus.rangeError ∧
     (modify_code acceptV noFaults
         (modify_code acceptV noFaults fs3 "t.py" 0 2 "X").2
         "t.py" 0 2 "X").2 "t.py" = fs3 "t.py") :=
  ⟨by decide, by decide,
    C8_invalid_range_idempotent acceptV noFaults fs3 "t.py" "a\nb\nc\n"
      0 2 "X" (by decide) rfl (by decide)⟩

/-- C9.  `modify_code` is a total function of its inputs — every internal
failure is a return value, not an exception — and the first component of
the Python pair it returns is `0` exactly on the success path and `1` at
every other return site, for every input, file state and fault
schedule. -/
theorem C9_status_zero_iff_applied
    (validate : String → Except String Unit) (faults : Faults)
    (fs : FS) (fn : String) (sline eline : Int) (nc : String) :
    pyStatus (modify_code validate faults fs fn sline eline nc).1 =
      if (modify_code validate faults fs fn sline eline nc).1 = MStatus.applied
      then 0 else 1 := by
  cases h : (modify_code validate faults fs fn sline eline nc).1 <;>
    simp [pyStatus]

/-- C10.  On every path on which the backup write has completed — success,
rejection, range error, and the later write-failure paths alike — the
backup file at the end of the call holds exactly the target's pre-call
content: candidate content is never written to the backup path, and the
restore path only reads it. -/
theorem C10_backup_holds_precall_content
    (validate : String → Except String Unit) (faults : Faults)
    (fs : FS) (fn content : String) (sline eline : Int) (nc : String)
    (hfs : fs fn = some content) (hb : faults.backupW = .ok) :
    (modify_code validate faults fs fn sline eline nc).2 (fn ++ ".bak") =
      some content := by
  have hne : ¬ fn ++ ".bak" = fn := bak_ne fn
  by_cases hc : 0 < sline ∧ sline ≤ ((pyReadlines content).length : Int) ∧
      0 < eline ∧ eline ≤ ((pyReadlines content).length : Int)
  · rw [mc_checked validate faults fs fn content sline eline nc hfs hb hc]
    cases hv : validate (spliceCandidate content sline eline nc) with
    | error diag =>
      cases hrw : faults.restoreW with
      | fail k =>
        rw [mcValidated_restoreFail validate faults _ fn content _ diag k hv hrw]
        show ((fs.write (fn ++ ".bak") content).write fn
          (content.take k)) (fn ++ ".bak") = some content
        rw [FS.write_other _ fn (content.take k) (fn ++ ".bak") hne]
        exact FS.write_self fs (fn ++ ".bak") content
      | ok =>
        rw [mcValidated_rejected validate faults _ fn content _ diag hv hrw]
        show ((fs.write (fn ++ ".bak") content).write fn
          content) (fn ++ ".bak") = some content
        rw [FS.write_other _ fn content (fn ++ ".bak") hne]
        exact FS.write_self fs (fn ++ ".bak") content
    | ok u =>
      cases hfw : faults.finalW with
      | fail k =>
        rw [mcValidated_writeFail validate faults _ fn content _ u k hv hfw]
        show ((fs.write (fn ++ ".bak") content).write fn
          ((spliceCandidate content sline eline nc).take k)) (fn ++ ".bak") =
          some content
        rw [FS.write_other _ fn _ (fn ++ ".bak") hne]
        exact FS.write_self fs (fn ++ ".bak") content
      | ok =>
        rw [mcValidated_applied validate faults _ fn content _ u hv hfw]
        show ((fs.write (fn ++ ".bak") content).write fn
          (spliceCandidate content sline eline nc)) (fn ++ ".bak") =
          some content
        rw [FS.write_other _ fn _ (fn ++ ".bak") hne]
        exact FS.write_self fs (fn ++ ".bak") content
  · rw [mc_rangeError validate faults fs fn content sline eline nc hfs hb hc]
    exact FS.write_self fs (fn ++ ".bak") content

/-- C10 witness: a concrete rejected edit — the backup file holds exactly
the pre-call target content afterwards. -/
theorem C10_witness :
    fs3 "t.py" = some "a\nb\nc\n" ∧ noFaults.backupW = WriteOutcome.ok ∧
    (modify_code rejectV noFaults fs3 "t.py" 1 3 "q").2 ("t.py" ++ ".bak") =
      some "a\nb\nc\n" :=
  ⟨by decide, rfl,
    C10_backup_holds_precall_content rejectV noFaults fs3 "t.py" "a\nb\nc\n"
      1 3 "q" (by decide) rfl⟩
